import Mathlib

/-!
Shallow embedding of the gameplay simulation core of the nokia-defence
tower-defence game (Go sources: main.go, creep.go, tower.go, creeps.go,
media.go and the later revisions in src/unnamed).  Go machine integers are
modelled as `Int`; Go pointers to `Creep` objects are modelled as indices
("ids") into a creep store, so that aliasing (two towers targeting the same
creep, the creep roster slice holding pointers) is represented faithfully.
Go slices of creep pointers are lists of ids; the in-place
remove-while-ranging loop of `Game.Update` is modelled on the backing array
with explicit length, exactly as Go's `append(s[:i], s[i+1:]...)` behaves.
-/

namespace NokiaDefence

/-- image.Point: a pair of Go ints. -/
structure Point where
  X : Int
  Y : Int
deriving DecidableEq, Repr

/-- image.Rectangle with Min and Max corner points. -/
structure Rectangle where
  Min : Point
  Max : Point
deriving DecidableEq, Repr

/-- image.Rectangle.Empty: reports whether the rectangle contains no points
(Go: `r.Min.X >= r.Max.X || r.Min.Y >= r.Max.Y`). -/
def Rectangle.Empty (r : Rectangle) : Bool :=
  r.Min.X ≥ r.Max.X || r.Min.Y ≥ r.Max.Y

/-- image.Rectangle.Overlaps: reports whether the two rectangles have a
non-empty intersection (Go standard library definition). -/
def Rectangle.Overlaps (r s : Rectangle) : Bool :=
  !r.Empty && !s.Empty &&
  decide (r.Min.X < s.Max.X) && decide (s.Min.X < r.Max.X) &&
  decide (r.Min.Y < s.Max.Y) && decide (s.Min.Y < r.Max.Y)

/-- Waypoint (media.go): a tile coordinate on the map path. -/
structure Waypoint where
  X : Int
  Y : Int
deriving DecidableEq, Repr

/-- Modelled from the spec: the game mode enumeration of the final revision
(`loading → title → build → {win | lose} → waiting`, plus `pause`).  The
enum constants themselves (`gameStateLose` etc.) are not among the source
files, but `g.State = gameStateLose` is assigned in
src/unnamed/part_003 (Creep.navigateWaypoints). -/
inductive GameMode where
  | loading
  | title
  | build
  | win
  | lose
  | waiting
  | pause
deriving DecidableEq, Repr

/-- The lose state assigned on breach in src/unnamed/part_003. -/
def gameStateLose : GameMode := GameMode.lose

/-- A frame-tag range of a sprite sheet (`Sprite.Meta.FrameTags[i]` with
fields `From` and `To`), as used by Creep.animate. -/
structure FrameTag where
  From : Int
  To : Int
deriving DecidableEq, Repr

/-- Direction constants of creep.go (`directionRight int = iota` ...). -/
def directionRight : Int := 0

/-- directionLeft constant of creep.go. -/
def directionLeft : Int := 1

/-- directionUp constant of creep.go. -/
def directionUp : Int := 2

/-- directionDown constant of creep.go. -/
def directionDown : Int := 3

/-- Creep (creep.go / src/unnamed/part_003): position, next waypoint index,
health, damage, loot, animation frame, movement cadence counter, facing
direction, animation flip flag, and the sprite's frame-tag metadata (the
only part of `*SpriteSheet` the simulation reads). -/
structure Creep where
  Coords : Point
  NextWaypoint : Int
  Health : Int
  Damage : Int
  Loot : Int
  Frame : Int
  LastMoved : Int
  Direction : Int
  Flip : Bool
  FrameTags : List FrameTag
deriving DecidableEq, Repr

/-- Default creep used to resolve `List.getD` lookups; Go's zero value. -/
def dCreep : Creep :=
  { Coords := ⟨0, 0⟩, NextWaypoint := 0, Health := 0, Damage := 0, Loot := 0,
    Frame := 0, LastMoved := 0, Direction := 0, Flip := false, FrameTags := [] }

instance : Inhabited Creep := ⟨dCreep⟩

/-- Default waypoint for `List.getD` lookups. -/
def dWaypoint : Waypoint := ⟨0, 0⟩

/-- Pixel center of a waypoint tile as computed in navigateWaypoints
(tileSize 7, tileCenter 4, hudOffset 5):
`(X*7+4, Y*7+4+5)`. -/
def waypointPixelCenter (wp : Waypoint) : Point :=
  ⟨wp.X * 7 + 4, wp.Y * 7 + 4 + 5⟩

/-- Creep.animate (creep.go lines 54-80): pick the frame-tag group from the
direction, set the flip flag, and clamp/increment the frame index. -/
def Creep.animate (c : Creep) : Creep :=
  let HORIZONTAL : Nat := 0
  let VERTICAL : Nat := 2
  let c :=
    if c.Direction = directionRight then { c with Flip := false }
    else if c.Direction = directionLeft then { c with Flip := true }
    else { c with Flip := false }
  let frameTag : Nat :=
    if c.Direction = directionRight then HORIZONTAL
    else if c.Direction = directionLeft then HORIZONTAL
    else VERTICAL
  let tag := c.FrameTags.getD frameTag ⟨0, 0⟩
  if c.Frame < tag.From ∨ c.Frame ≥ tag.To then { c with Frame := tag.From }
  else if c.Frame < tag.To then { c with Frame := c.Frame + 1 }
  else c

/-- Creep.navigateWaypoints, following the latest revision
(src/unnamed/part_003 lines 156-190): step one pixel per axis toward the
pixel center of the next waypoint, updating the facing direction; on
arrival advance the waypoint, or - when no further waypoint exists - set
the game state to `gameStateLose` (the earlier revision in src/creep.go
instead called log.Fatal here).  Returns the updated creep and game
state. -/
def Creep.navigateWaypoints (w : List Waypoint) (st : GameMode) (c : Creep) :
    Creep × GameMode :=
  let targetSquare := w.getD c.NextWaypoint.toNat dWaypoint
  let targertCoords := waypointPixelCenter targetSquare
  let c :=
    if targertCoords.X > c.Coords.X then
      { c with Coords := ⟨c.Coords.X + 1, c.Coords.Y⟩, Direction := directionRight }
    else c
  let c :=
    if targertCoords.X < c.Coords.X then
      { c with Coords := ⟨c.Coords.X - 1, c.Coords.Y⟩, Direction := directionLeft }
    else c
  let c :=
    if targertCoords.Y > c.Coords.Y then
      { c with Coords := ⟨c.Coords.X, c.Coords.Y + 1⟩, Direction := directionUp }
    else c
  let c :=
    if targertCoords.Y < c.Coords.Y then
      { c with Coords := ⟨c.Coords.X, c.Coords.Y - 1⟩, Direction := directionDown }
    else c
  if targertCoords.X = c.Coords.X ∧ targertCoords.Y = c.Coords.Y then
    if c.NextWaypoint + 1 < (w.length : Int) then
      ({ c with NextWaypoint := c.NextWaypoint + 1 }, st)
    else
      (c, gameStateLose)
  else
    (c, st)

/-- Creep.Update (creep.go lines 37-52 / part_003 lines 111-126): a dead
creep credits its loot and reports the "Creep died" error (the Bool
component); otherwise advance the movement cadence counter and, every time
it wraps to 0, navigate and animate.  Result: updated creep, game state,
money balance, and whether the error was returned. -/
def Creep.Update (w : List Waypoint) (st : GameMode) (money : Int) (c : Creep) :
    Creep × GameMode × Int × Bool :=
  if c.Health ≤ 0 then
    (c, st, money + c.Loot, true)
  else
    let c := { c with LastMoved := (c.LastMoved + 1) % 10 }
    if c.LastMoved ≠ 0 then
      (c, st, money, false)
    else
      let p := Creep.navigateWaypoints w st c
      (p.1.animate, p.2, money, false)

/-- Creep.Attack (creep.go lines 112-118): subtract the damage amount from
health; report whether health dropped to 0 or below. -/
def Creep.Attack (amount : Int) (c : Creep) : Creep × Bool :=
  let c := { c with Health := c.Health - amount }
  (c, c.Health ≤ 0)

/-- Tower (tower.go): position, cost, damage per tick, construction
animation frame, current target (a creep pointer, modelled as an id into
the creep store), and the length of its sprite's frame list (the only part
of `*SpriteSheet` Tower.Update reads). -/
structure Tower where
  Coords : Point
  Cost : Int
  Damage : Int
  Frame : Int
  Target : Option Nat
  SpriteLen : Nat
deriving DecidableEq, Repr

/-- Default tower for `List.getD` lookups. -/
def dTower : Tower :=
  { Coords := ⟨0, 0⟩, Cost := 0, Damage := 0, Frame := 0, Target := none, SpriteLen := 0 }

/-- The creep hitbox of tower.go: a square of radius 3 (hitboxRadius)
centered on the creep. -/
def creepBox (p : Point) : Rectangle :=
  ⟨⟨p.X - 3, p.Y - 3⟩, ⟨p.X + 3, p.Y + 3⟩⟩

/-- The tower range box of tower.go: a square of radius 14
(rangeSize = 2 * tileSize = 2 * 7) centered on the tower. -/
def towerBox (p : Point) : Rectangle :=
  ⟨⟨p.X - 14, p.Y - 14⟩, ⟨p.X + 14, p.Y + 14⟩⟩

/-- Tower.findNewTarget (tower.go lines 69-90): scan the whole active creep
roster and assign `Target` for every creep whose hitbox overlaps the range
box (there is no break, so the last assignment - the last overlapping
creep in roster order - wins). -/
def Tower.findNewTarget (store : List Creep) (roster : List Nat) (t : Tower) :
    Tower :=
  roster.foldl
    (fun t id =>
      let v := store.getD id dCreep
      let withinRange := (towerBox t.Coords).Overlaps (creepBox v.Coords)
      if withinRange then { t with Target := some id } else t)
    t

/-- Tower.clearIfOutOfRange (tower.go lines 100-118): drop the current
target when its hitbox no longer overlaps the range box. -/
def Tower.clearIfOutOfRange (store : List Creep) (t : Tower) : Tower :=
  match t.Target with
  | none => t
  | some id =>
    let v := store.getD id dCreep
    let withinRange := (towerBox t.Coords).Overlaps (creepBox v.Coords)
    if !withinRange then { t with Target := none } else t

/-- Tower.Update (tower.go lines 45-67): advance the construction animation,
acquire or re-check the target, then attack it, clearing the target when
the attack reports death.  Returns the updated tower and creep store. -/
def Tower.Update (store : List Creep) (roster : List Nat) (t : Tower) :
    Tower × List Creep :=
  let t := if t.Frame < (t.SpriteLen : Int) - 1 then { t with Frame := t.Frame + 1 } else t
  let t :=
    match t.Target with
    | none => t.findNewTarget store roster
    | some _ => t.clearIfOutOfRange store
  match t.Target with
  | none => (t, store)
  | some id =>
    let p := (store.getD id dCreep).Attack t.Damage
    let store := store.set id p.1
    if p.2 then ({ t with Target := none }, store) else (t, store)

/-- Game (main.go 2022 revision): the state read and written by Game.Update,
with creep pointers modelled as ids.  `CreepStore` holds every creep object
ever allocated (Go heap); `Creeps` is the active roster slice (ids).
`State` carries the game mode of the final revision (assigned by
navigateWaypoints in src/unnamed/part_003); `NoBuildTiles`,
`SmallMonsterTags` and the sprite lengths stand for the loaded asset data
the update code reads. -/
structure Game where
  State : GameMode
  Towers : List Tower
  CreepStore : List Creep
  Creeps : List Nat
  Money : Int
  SpawnCooldown : Int
  MapData : List Waypoint
  Cursor : Point
  NoBuildTiles : List Waypoint
  SmallMonsterTags : List FrameTag
  BasicTowerSpriteLen : Nat
  StrongTowerSpriteLen : Nat
deriving DecidableEq, Repr

/-- StartingMoney constant of main.go. -/
def StartingMoney : Int := 500

/-- NewBasicTower (tower.go lines 26-32): a tower at the cursor with cost
200 and damage 2, using the basic-tower sprite. -/
def NewBasicTower (g : Game) : Tower :=
  { Coords := g.Cursor, Cost := 200, Damage := 2, Frame := 0, Target := none,
    SpriteLen := g.BasicTowerSpriteLen }

/-- NewStrongTower (tower.go lines 35-42): a tower at the cursor with cost
500 and damage 5, using the strong-tower sprite. -/
def NewStrongTower (g : Game) : Tower :=
  { Coords := g.Cursor, Cost := 500, Damage := 5, Frame := 0, Target := none,
    SpriteLen := g.StrongTowerSpriteLen }

/-- The tower loop of Game.Update (main.go lines 158-160): each tower
updates in roster order, seeing the creep store as left by the previous
towers; the creep roster slice itself is unchanged by this phase. -/
def updateTowers (roster : List Nat) :
    List Tower → List Creep → List Tower × List Creep
  | [], store => ([], store)
  | t :: ts, store =>
    let p := t.Update store roster
    let q := updateTowers roster ts p.2
    (p.1 :: q.1, q.2)

/-- One in-place removal step of `append(g.Creeps[:i], g.Creeps[i+1:]...)`
on the backing array `b` of a slice of current length `L`: elements
`i+1 .. L-1` shift left one position; elements at and past `L-1` keep
their old values (Go's append does not clear the vacated cell). -/
def removeShift (b : List Nat) (i L : Nat) : List Nat :=
  b.take i ++ (b.drop (i + 1)).take (L - 1 - i) ++ b.drop (L - 1)

/-- The creep loop of Game.Update (main.go lines 162-167), iterating over a
snapshot of the roster slice taken when the range loop began: `m` is the
remaining iteration count, `k` the current iteration index, `b` the backing
array (of the snapshot length), `L` the current slice length.  A creep
whose Update returns the died error is removed in place; when the removal
would slice beyond the current length (`k ≥ L`), Go panics with a
slice-bounds error, modelled as `none`. -/
def creepLoopGo (w : List Waypoint) :
    Nat → Nat → List Nat → Nat → List Creep → GameMode → Int →
    Option (List Nat × Nat × List Creep × GameMode × Int)
  | 0, _, b, L, store, st, money => some (b, L, store, st, money)
  | m + 1, k, b, L, store, st, money =>
    let id := b.getD k 0
    let r := Creep.Update w st money (store.getD id dCreep)
    let store := store.set id r.1
    if r.2.2.2 then
      if k < L then
        creepLoopGo w m (k + 1) (removeShift b k L) (L - 1) store r.2.1 r.2.2.1
      else
        none
    else
      creepLoopGo w m (k + 1) b L store r.2.1 r.2.2.1

/-- The creep phase of one tick: run the removal loop over the current
roster and store the surviving slice back into the game. -/
def creepPhase (g : Game) : Option Game :=
  match creepLoopGo g.MapData g.Creeps.length 0 g.Creeps g.Creeps.length
      g.CreepStore g.State g.Money with
  | none => none
  | some (b, L, store, st, money) =>
    some { g with Creeps := b.take L, CreepStore := store, State := st, Money := money }

/-- The E-key purchase branch of Game.Update (main.go lines 170-178): build
a basic tower at the cursor; append it and debit the cost only when the
balance stays non-negative. -/
def buyBasic (g : Game) : Game :=
  let t := NewBasicTower g
  let moneydiff := g.Money - t.Cost
  if moneydiff ≥ 0 then
    { g with Towers := g.Towers ++ [t], Money := moneydiff }
  else g

/-- The Z-key purchase branch of Game.Update (main.go lines 179-187), same
shape with the strong tower. -/
def buyStrong (g : Game) : Game :=
  let t := NewStrongTower g
  let moneydiff := g.Money - t.Cost
  if moneydiff ≥ 0 then
    { g with Towers := g.Towers ++ [t], Money := moneydiff }
  else g

/-- The spawn block of Game.Update (main.go lines 189-206): allocate a new
small creep at the pixel center of the first waypoint
(`spawn.X*7+4, spawn.Y*7+5+4` with gridScale 7, hudMargin 5,
gridSquareMid 4) and append it to the roster.  Fields the composite
literal omits take Go zero values. -/
def spawnCreep (g : Game) : Game :=
  let spawn := g.MapData.getD 0 dWaypoint
  let c : Creep :=
    { Coords := ⟨spawn.X * 7 + 4, spawn.Y * 7 + 5 + 4⟩,
      NextWaypoint := 1, Damage := 0, Health := 1000, Loot := 50, Frame := 0,
      LastMoved := 0, Direction := 0, Flip := false,
      FrameTags := g.SmallMonsterTags }
  { g with CreepStore := g.CreepStore ++ [c],
           Creeps := g.Creeps ++ [g.CreepStore.length] }

/-- Game.Update (main.go lines 135-212) for one simulation tick after
loading, with the two purchase key events as booleans and the cursor
movement keys not pressed: tower loop, creep loop (possibly panicking,
hence `Option`), purchase handlers, then the spawn countdown check and
increment (`(c+1) % (3*60)`). -/
def Game.Update (buyBasicKey buyStrongKey : Bool) (g : Game) : Option Game :=
  let p := updateTowers g.Creeps g.Towers g.CreepStore
  let g := { g with Towers := p.1, CreepStore := p.2 }
  match creepPhase g with
  | none => none
  | some g =>
    let g := if buyBasicKey then buyBasic g else g
    let g := if buyStrongKey then buyStrong g else g
    let g := if g.SpawnCooldown = 0 then spawnCreep g else g
    some { g with SpawnCooldown := (g.SpawnCooldown + 1) % (3 * 60) }

/-- Iterate `Game.Update` with no purchase inputs for `n` ticks,
propagating a panic as `none`. -/
def runTicks : Nat → Game → Option Game
  | 0, g => some g
  | n + 1, g =>
    match Game.Update false false g with
    | none => none
    | some g => runTicks n g

/-- Spec-side description of one axis of creep movement, used to state the
movement claim: one pixel toward the target on an axis not yet aligned,
nothing on an aligned axis. -/
def specAxisStep (a t : Int) : Int :=
  if t > a then 1 else if t < a then -1 else 0

/-- Two points with equal coordinates are equal. -/
theorem point_eq_of (p q : Point) (h1 : p.X = q.X) (h2 : p.Y = q.Y) : p = q := by
  cases p; cases q; simp_all

/-- Creep.animate never moves the creep. -/
theorem animate_Coords (c : Creep) : c.animate.Coords = c.Coords := by
  simp only [Creep.animate]
  split_ifs <;> rfl

set_option maxHeartbeats 800000 in
/-- The four movement ifs of navigateWaypoints step each axis by
`specAxisStep` toward the pixel center of the next waypoint, independently
of the waypoint-advance bookkeeping. -/
theorem navigateWaypoints_Coords (w : List Waypoint) (st : GameMode) (c : Creep) :
    ((Creep.navigateWaypoints w st c).1).Coords =
      ⟨c.Coords.X + specAxisStep c.Coords.X
        (waypointPixelCenter (w.getD c.NextWaypoint.toNat dWaypoint)).X,
       c.Coords.Y + specAxisStep c.Coords.Y
        (waypointPixelCenter (w.getD c.NextWaypoint.toNat dWaypoint)).Y⟩ := by
  refine point_eq_of _ _ ?_ ?_ <;>
  · simp only [Creep.navigateWaypoints, specAxisStep, apply_ite Prod.fst,
      apply_ite Creep.Coords, apply_ite Point.X, apply_ite Point.Y]
    split_ifs <;> omega

/-- A two-waypoint path used by concrete instances. -/
def wTwo : List Waypoint := [⟨0, 0⟩, ⟨1, 0⟩]

/-- A creep standing exactly on the pixel center (11, 9) of the last
waypoint of `wTwo`. -/
def cBreach : Creep := { dCreep with NextWaypoint := 1, Health := 5, Coords := ⟨11, 9⟩ }

/-- A creep about to complete its movement cadence (LastMoved 9). -/
def cMove : Creep :=
  { dCreep with NextWaypoint := 1, Health := 5, Coords := ⟨5, 9⟩, LastMoved := 9 }

/-- C1: a creep whose pixel position equals the pixel center of the last
waypoint makes the navigation step set the game state to the lose state,
returning normally (the function is total, so the program does not
terminate) and leaving the creep exactly where it is - it neither moves
past the path end nor advances its waypoint index, and the lose state is
assigned exactly once, by this single navigation step. -/
theorem creep_breach_sets_lose_state (w : List Waypoint) (st : GameMode) (c : Creep)
    (hw : w ≠ []) (hlast : c.NextWaypoint = (w.length : Int) - 1)
    (hpos : c.Coords = waypointPixelCenter (w.getD (w.length - 1) dWaypoint)) :
    Creep.navigateWaypoints w st c = (c, gameStateLose) := by
  have hlen : 0 < w.length := List.length_pos.mpr hw
  have htn : c.NextWaypoint.toNat = w.length - 1 := by omega
  have h2 : ¬ (c.NextWaypoint + 1 < (w.length : Int)) := by omega
  simp only [Creep.navigateWaypoints, htn]
  rw [← hpos]
  simp [h2]

/-- Witness for the breach theorem at a concrete two-waypoint path. -/
theorem creep_breach_sets_lose_state_witness :
    Creep.navigateWaypoints wTwo GameMode.build cBreach = (cBreach, gameStateLose) :=
  creep_breach_sets_lose_state wTwo GameMode.build cBreach (by decide) (by decide) (by decide)

/-- C2 (code bug): with the tower at (10,10) and the creeps at (10,10) and
(12,10), both creep hitboxes overlap the tower's range box, yet
findNewTarget leaves the tower targeting creep 1 - the last in-range creep
in roster order - because the scan loop has no break, contradicting both
the claim and the function's own comment "Look for the first creep in
range" (tower.go line 69), which would give creep 0. -/
theorem findNewTarget_picks_last_in_range :
    ((towerBox (Point.mk 10 10)).Overlaps (creepBox (Point.mk 10 10)) = true) ∧
    ((towerBox (Point.mk 10 10)).Overlaps (creepBox (Point.mk 12 10)) = true) ∧
    (Tower.findNewTarget
        [{ dCreep with Coords := ⟨10, 10⟩, Health := 100 },
         { dCreep with Coords := ⟨12, 10⟩, Health := 100 }] [0, 1]
        { dTower with Coords := ⟨10, 10⟩ }).Target = some 1 := by decide

/-- Concrete shop game: empty rosters, starting money 500, cursor on a
buildable spot. -/
def gShop : Game :=
  { State := GameMode.build, Towers := [], CreepStore := [], Creeps := [],
    Money := 500, SpawnCooldown := 1, MapData := wTwo, Cursor := ⟨42, 24⟩,
    NoBuildTiles := [], SmallMonsterTags := [], BasicTowerSpriteLen := 1,
    StrongTowerSpriteLen := 1 }

/-- The shop game with only 100 money. -/
def gPoor : Game := { gShop with Money := 100 }

/-- C5: a basic-tower purchase with balance below the 200 cost changes
neither the money nor the tower roster; with sufficient balance it appends
exactly the one new tower and debits exactly the cost; and from starting
balance 500 two purchases succeed leaving balance 100 and two towers,
while a third attempt leaves balance 100 and tower count 2. -/
theorem buy_basic_affordability :
    (∀ g : Game, g.Money < 200 → buyBasic g = g) ∧
    (∀ g : Game, 200 ≤ g.Money →
      (buyBasic g).Towers = g.Towers ++ [NewBasicTower g] ∧
      (buyBasic g).Money = g.Money - 200) ∧
    ((buyBasic (buyBasic gShop)).Money = 100 ∧
     (buyBasic (buyBasic gShop)).Towers.length = 2 ∧
     (buyBasic (buyBasic (buyBasic gShop))).Money = 100 ∧
     (buyBasic (buyBasic (buyBasic gShop))).Towers.length = 2) := by
  refine ⟨?_, ?_, by decide⟩
  · intro g h
    have hneg : ¬ ((g.Money - (NewBasicTower g).Cost) ≥ 0) := by
      simp only [NewBasicTower]; omega
    simp [buyBasic, hneg]
  · intro g h
    have hpos : (g.Money - (NewBasicTower g).Cost) ≥ 0 := by
      simp only [NewBasicTower]; omega
    simp [buyBasic, hpos, NewBasicTower, h]

/-- Witness for the affordability theorem at the concrete shop games. -/
theorem buy_basic_affordability_witness :
    buyBasic gPoor = gPoor ∧ (buyBasic gShop).Money = gShop.Money - 200 :=
  ⟨buy_basic_affordability.1 gPoor (by decide),
   (buy_basic_affordability.2.1 gShop (by decide)).2⟩

/-- C6: an alive creep moves only on the ticks where its cadence counter
wraps to zero (every 10th update); on such a tick each axis not yet equal
to the pixel target of the next waypoint steps exactly one pixel toward it
(independently per axis, diagonals not normalized), and on every other
tick its position is unchanged. -/
theorem creep_moves_on_cadence (w : List Waypoint) (st : GameMode) (money : Int)
    (c : Creep) (halive : 0 < c.Health) :
    ((c.LastMoved + 1) % 10 ≠ 0 → ((Creep.Update w st money c).1).Coords = c.Coords) ∧
    ((c.LastMoved + 1) % 10 = 0 → ((Creep.Update w st money c).1).Coords =
      ⟨c.Coords.X + specAxisStep c.Coords.X
        (waypointPixelCenter (w.getD c.NextWaypoint.toNat dWaypoint)).X,
       c.Coords.Y + specAxisStep c.Coords.Y
        (waypointPixelCenter (w.getD c.NextWaypoint.toNat dWaypoint)).Y⟩) := by
  have hnd : ¬ c.Health ≤ 0 := by omega
  constructor
  · intro h
    simp [Creep.Update, hnd, h]
  · intro h
    simp [Creep.Update, hnd, h, animate_Coords, navigateWaypoints_Coords]

/-- Witness for the cadence theorem: the concrete creep `cMove` completes
its cadence and steps one pixel toward the waypoint center. -/
theorem creep_moves_on_cadence_witness :
    ((Creep.Update wTwo GameMode.build 0 cMove).1).Coords =
      ⟨cMove.Coords.X + specAxisStep cMove.Coords.X
        (waypointPixelCenter (wTwo.getD cMove.NextWaypoint.toNat dWaypoint)).X,
       cMove.Coords.Y + specAxisStep cMove.Coords.Y
        (waypointPixelCenter (wTwo.getD cMove.NextWaypoint.toNat dWaypoint)).Y⟩ :=
  (creep_moves_on_cadence wTwo GameMode.build 0 cMove (by decide)).2 (by decide)

/-- A weak tower standing on (10,10), already targeting creep 0. -/
def tWeakOn0 : Tower :=
  { Coords := ⟨10, 10⟩, Cost := 200, Damage := 2, Frame := 0, Target := some 0, SpriteLen := 1 }

/-- A strong tower standing on (10,10), already targeting creep 0. -/
def tStrongOn0 : Tower :=
  { Coords := ⟨10, 10⟩, Cost := 500, Damage := 5, Frame := 0, Target := some 0, SpriteLen := 1 }

/-- A creep at (10,10) with 3 health and 50 loot. -/
def cFrail : Creep :=
  { dCreep with Coords := ⟨10, 10⟩, NextWaypoint := 1, Health := 3, Loot := 50 }

/-- Game for the dangling-target tick: one creep with 3 health targeted by
two towers standing on it, the earlier tower dealing 2 damage and the
later one 5. -/
def gDangling : Game :=
  { State := GameMode.build,
    Towers := [tWeakOn0, tStrongOn0],
    CreepStore := [cFrail],
    Creeps := [0], Money := 0, SpawnCooldown := 5, MapData := wTwo,
    Cursor := ⟨42, 24⟩, NoBuildTiles := [], SmallMonsterTags := [],
    BasicTowerSpriteLen := 1, StrongTowerSpriteLen := 1 }

/-- C3 (counterexample): in `gDangling` the second tower kills creep 0 this
tick (the first tower's attack only brings it to 1 health), the creep loop
removes creep 0 from the roster, yet at the end of the very same tick the
first tower still holds `Target = some 0` - a reference to a creep no
longer in the active roster, refuting the invariant as claimed. -/
theorem tower_dangling_target_counterexample :
    (Game.Update false false gDangling).map
      (fun s => (s.Creeps, (s.Towers.getD 0 dTower).Target)) =
      some ([], some 0) := by decide

/-- A dead creep (health 0) with 7 loot, used at roster index 0. -/
def cDead7 : Creep :=
  { dCreep with Coords := ⟨10, 10⟩, NextWaypoint := 1, Loot := 7 }

/-- An alive creep with cadence counter 3, used at roster index 1. -/
def cAlive3 : Creep :=
  { dCreep with Coords := ⟨20, 20⟩, NextWaypoint := 1, Health := 100, Loot := 9, LastMoved := 3 }

/-- Game for the skipped-creep tick: roster [0, 1], creep 0 dead, creep 1
alive with cadence counter 3. -/
def gSkip : Game :=
  { State := GameMode.build, Towers := [],
    CreepStore := [cDead7, cAlive3],
    Creeps := [0, 1], Money := 0, SpawnCooldown := 5, MapData := wTwo,
    Cursor := ⟨42, 24⟩, NoBuildTiles := [], SmallMonsterTags := [],
    BasicTowerSpriteLen := 1, StrongTowerSpriteLen := 1 }

/-- C10 (counterexample): in `gSkip` the creep at index 0 dies and is
removed while iterating, and index 0 is not the last index; the claim then
asserts that the creep that was at index 1 - which here is also the last
creep - receives no update (cadence counter stays 3) and that the last
creep receives two updates (counter becomes 5).  In fact after the tick its
cadence counter is 4: the backing-array shift makes the final loop
iteration read the shifted cell, so the creep that is both at index i+1
and last receives exactly one update, refuting both parts of the claim for
this input. -/
theorem creep_loop_skipped_creep_counterexample :
    (gSkip.CreepStore.getD 1 dCreep).LastMoved = 3 ∧
    (Game.Update false false gSkip).map
      (fun s => ((s.CreepStore.getD 1 dCreep).LastMoved, s.Creeps, s.Money)) =
      some (4, [1], 7) := by decide

/-- The strong tower (5 damage per tick) of the kill scenario, at (14, 44)
so the creep stays in range for the whole walk. -/
def tKiller : Tower :=
  { Coords := ⟨14, 44⟩, Cost := 500, Damage := 5, Frame := 0, Target := none, SpriteLen := 1 }

/-- The 1000-health small creep of the kill scenario. -/
def cTank : Creep :=
  { dCreep with Coords := ⟨4, 44⟩, NextWaypoint := 1, Health := 1000, Loot := 50 }

/-- Game for the 1000-health kill scenario: the creep starts at the spawn
center (4, 44) and walks toward the far waypoint center (74, 44); starting
money 500. -/
def gKill : Game :=
  { State := GameMode.build,
    Towers := [tKiller],
    CreepStore := [cTank],
    Creeps := [0], Money := 500, SpawnCooldown := 1,
    MapData := [⟨0, 5⟩, ⟨10, 5⟩], Cursor := ⟨42, 24⟩, NoBuildTiles := [],
    SmallMonsterTags := [], BasicTowerSpriteLen := 1, StrongTowerSpriteLen := 1 }

set_option maxRecDepth 100000 in
/-- C7: in `gKill` the tower acquires the creep on tick 1 and damages it 5
per tick; after 199 ticks the creep has 5 health and is still in the
active roster (the id 1 alongside it is the creep the free-running spawner
released at tick 180); on the 200th tick its health reaches 0, the tower's
target is cleared within that same tick, the 50 loot is credited (money
550), and the creep is removed from the roster within that same tick. -/
theorem tower_kill_scenario :
    ((runTicks 199 gKill).map
      (fun s => ((s.CreepStore.getD 0 dCreep).Health, s.Creeps, s.Money,
        (s.Towers.getD 0 dTower).Target)) = some (5, [0, 1], 500, some 0)) ∧
    ((runTicks 200 gKill).map
      (fun s => ((s.CreepStore.getD 0 dCreep).Health, s.Creeps, s.Money,
        (s.Towers.getD 0 dTower).Target)) = some (0, [1], 550, none)) := by decide


/-- findNewTarget either leaves the target unchanged or targets a roster
member. -/
theorem findNewTarget_Target_cases (store : List Creep) (roster : List Nat) (t : Tower) :
    (t.findNewTarget store roster).Target = t.Target ∨
    ∃ j ∈ roster, (t.findNewTarget store roster).Target = some j := by
  induction roster generalizing t with
  | nil => left; rfl
  | cons a l ih =>
    simp only [Tower.findNewTarget, List.foldl_cons] at ih ⊢
    rcases ih (if (towerBox t.Coords).Overlaps (creepBox ((store.getD a dCreep).Coords)) then { t with Target := some a } else t) with h | h
    · rw [h]
      split_ifs with hov
      · right; exact ⟨a, List.mem_cons_self a l, rfl⟩
      · left; rfl
    · obtain ⟨j, hj, hjt⟩ := h
      right; exact ⟨j, List.mem_cons_of_mem a hj, hjt⟩

/-- clearIfOutOfRange either keeps the target or clears it. -/
theorem clearIfOutOfRange_Target (store : List Creep) (t : Tower) :
    (t.clearIfOutOfRange store).Target = t.Target ∨
    (t.clearIfOutOfRange store).Target = none := by
  simp only [Tower.clearIfOutOfRange]
  cases h : t.Target with
  | none => simp [h]
  | some i =>
    dsimp only
    split_ifs <;> simp [h]

/-- clearIfOutOfRange does not change the damage field. -/
theorem clearIfOutOfRange_Damage (store : List Creep) (t : Tower) :
    (t.clearIfOutOfRange store).Damage = t.Damage := by
  simp only [Tower.clearIfOutOfRange]
  cases h : t.Target
  · rfl
  · dsimp only
    split_ifs <;> rfl

/-- findNewTarget does not change the damage field. -/
theorem findNewTarget_Damage (store : List Creep) (roster : List Nat) (t : Tower) :
    (t.findNewTarget store roster).Damage = t.Damage := by
  induction roster generalizing t with
  | nil => rfl
  | cons a l ih =>
    simp only [Tower.findNewTarget, List.foldl_cons] at ih ⊢
    rw [ih]
    split_ifs <;> rfl

/-- C3 (amended): after a tower's own update, any target it still holds
has strictly positive health in the resulting store (so the tower that
deals a killing blow clears its reference immediately), and a tower whose
target is already dead at the start of its update always leaves that
update with no target.  Hence a dangling reference to a creep removed from
the roster (see the counterexample) survives at most until that tower's
next update. -/
theorem tower_update_target_liveness (t : Tower) (store : List Creep) (roster : List Nat)
    (hdmg : 0 ≤ t.Damage)
    (ht : ∀ i, t.Target = some i → i < store.length)
    (hr : ∀ j ∈ roster, j < store.length) :
    (∀ id, ((t.Update store roster).1).Target = some id →
      0 < (((t.Update store roster).2).getD id dCreep).Health) ∧
    (∀ id, t.Target = some id → (store.getD id dCreep).Health ≤ 0 →
      ((t.Update store roster).1).Target = none) := by
  simp only [Tower.Update]
  have hT1 : (if t.Frame < (t.SpriteLen : Int) - 1 then { t with Frame := t.Frame + 1 } else t).Target = t.Target := by
    split <;> rfl
  have hD1 : (if t.Frame < (t.SpriteLen : Int) - 1 then { t with Frame := t.Frame + 1 } else t).Damage = t.Damage := by
    split <;> rfl
  generalize hg : (if t.Frame < (t.SpriteLen : Int) - 1 then { t with Frame := t.Frame + 1 } else t) = t1
  rw [hg] at hT1 hD1
  cases h1 : t1.Target with
  | none =>
    dsimp only
    cases h2 : (t1.findNewTarget store roster).Target with
    | none =>
      dsimp only
      refine ⟨fun id hid => ?_, fun id hid _ => ?_⟩
      · rw [h2] at hid; exact absurd hid (by simp)
      · rw [← hT1, h1] at hid; exact absurd hid (by simp)
    | some j =>
      have hjlen : j < store.length := by
        rcases findNewTarget_Target_cases store roster t1 with hc | hcm
        · rw [h2, h1] at hc; exact absurd hc (by simp)
        · obtain ⟨j2, hj2, hjt⟩ := hcm
          rw [h2] at hjt
          have hq : j = j2 := by simpa using hjt
          exact hq ▸ hr j2 hj2
      dsimp only
      by_cases hdied :
          ((store.getD j dCreep).Health - (t1.findNewTarget store roster).Damage ≤ 0)
      · refine ⟨fun id hid => ?_, fun id hid _ => ?_⟩
        · simp only [Creep.Attack, decide_eq_true_eq] at hid
          rw [if_pos hdied] at hid
          exact absurd hid (by simp)
        · rw [← hT1, h1] at hid; exact absurd hid (by simp)
      · refine ⟨fun id hid => ?_, fun id hid _ => ?_⟩
        · simp only [Creep.Attack, decide_eq_true_eq] at hid ⊢
          rw [if_neg hdied] at hid ⊢
          rw [h2] at hid
          have hq : j = id := by simpa using hid
          subst hq
          rw [List.getD_eq_getElem?_getD, List.getElem?_set_eq_of_lt _ hjlen]
          simp only [Option.getD_some]
          omega
        · rw [← hT1, h1] at hid; exact absurd hid (by simp)
  | some i0 =>
    have hi0len : i0 < store.length := ht i0 (by rw [← hT1, h1])
    dsimp only
    cases h2 : (t1.clearIfOutOfRange store).Target with
    | none =>
      dsimp only
      refine ⟨fun id hid => ?_, fun id hid _ => ?_⟩
      · rw [h2] at hid; exact absurd hid (by simp)
      · exact h2
    | some k =>
      have hk : k = i0 := by
        rcases clearIfOutOfRange_Target store t1 with hc | hc <;> rw [h2] at hc
        · rw [h1] at hc; simpa using hc
        · exact absurd hc (by simp)
      subst hk
      dsimp only
      by_cases hdied :
          ((store.getD k dCreep).Health - (t1.clearIfOutOfRange store).Damage ≤ 0)
      · refine ⟨fun id hid => ?_, fun id hid hdead => ?_⟩
        · simp only [Creep.Attack, decide_eq_true_eq] at hid
          rw [if_pos hdied] at hid
          exact absurd hid (by simp)
        · simp only [Creep.Attack, decide_eq_true_eq]
          rw [if_pos hdied]
      · refine ⟨fun id hid => ?_, fun id hid hdead => ?_⟩
        · simp only [Creep.Attack, decide_eq_true_eq] at hid ⊢
          rw [if_neg hdied] at hid ⊢
          rw [h2] at hid
          have hq : k = id := by simpa using hid
          subst hq
          rw [List.getD_eq_getElem?_getD, List.getElem?_set_eq_of_lt _ hi0len]
          simp only [Option.getD_some]
          omega
        · rw [← hT1, h1] at hid
          have hq : k = id := by simpa using hid
          subst hq
          have hc : (store.getD k dCreep).Health - (t1.clearIfOutOfRange store).Damage ≤ 0 := by
            rw [clearIfOutOfRange_Damage, hD1]
            omega
          exact absurd hc hdied

/-- Witness for the liveness theorem: a tower holding a dead target ends
its own update with no target. -/
theorem tower_update_target_liveness_witness :
    ((tStrongOn0.Update [cDead7] [0]).1).Target = none :=
  (tower_update_target_liveness tStrongOn0 [cDead7] [0] (by decide)
    (fun i h => by simp [tStrongOn0] at h; simp; omega)
    (fun j hj => by simp at hj; simp; omega)).2 0
    (by decide) (by decide)

/-- Modelled from the spec: pixel-to-tile conversion, inverting the
tile-to-pixel mapping used throughout src (tileSize 7, hudOffset 5); Go
integer division truncates toward zero, hence `Int.tdiv`. -/
def pixelToTile (p : Point) : Waypoint :=
  ⟨Int.tdiv p.X 7, Int.tdiv (p.Y - 5) 7⟩

/-- Modelled from the spec: the upgrade attempt of the final revision
(absent from src): when a tower already occupies the exact cursor
position, the build action instead replaces it with the strong tier,
contingent on affordability, debiting the full upgrade cost. -/
def upgradeAttempt (g : Game) : Game :=
  let t := NewStrongTower g
  let moneydiff := g.Money - t.Cost
  if moneydiff ≥ 0 then
    { g with
      Towers := g.Towers.map (fun old => if old.Coords = g.Cursor then t else old),
      Money := moneydiff }
  else g

/-- Modelled from the spec: the final revision's buy action with placement
legality (absent from src, whose buy handler checks only affordability):
rejected outright when the cursor's tile is a no-build tile; interpreted
as an upgrade attempt when a tower already occupies the exact cursor
position; otherwise a basic-tower purchase gated on affordability. -/
def buyAttempt (g : Game) : Game :=
  if pixelToTile g.Cursor ∈ g.NoBuildTiles then g
  else if g.Towers.any (fun old => decide (old.Coords = g.Cursor)) then upgradeAttempt g
  else buyBasic g

/-- C4: a buy attempt on a no-build tile is rejected with no state change
at all; a buy attempt on a position already occupied by a tower becomes an
upgrade attempt instead of stacking a second tower - the tower count is
unchanged - and when the upgrade is unaffordable nothing changes. -/
theorem buy_attempt_rejections (g : Game) :
    (pixelToTile g.Cursor ∈ g.NoBuildTiles → buyAttempt g = g) ∧
    (pixelToTile g.Cursor ∉ g.NoBuildTiles →
      (∃ t0 ∈ g.Towers, t0.Coords = g.Cursor) →
      buyAttempt g = upgradeAttempt g ∧
      (buyAttempt g).Towers.length = g.Towers.length ∧
      (g.Money < (NewStrongTower g).Cost → buyAttempt g = g)) := by
  constructor
  · intro h
    simp [buyAttempt, h]
  · intro h hocc
    have hany : (g.Towers.any (fun old => decide (old.Coords = g.Cursor))) = true := by
      rw [List.any_eq_true]
      obtain ⟨t0, ht0, hc⟩ := hocc
      exact ⟨t0, ht0, by simp [hc]⟩
    have heq : buyAttempt g = upgradeAttempt g := by
      simp [buyAttempt, h, hany]
    refine ⟨heq, ?_, ?_⟩
    · rw [heq]
      simp only [upgradeAttempt]
      split_ifs <;> simp
    · intro hm
      have hneg : ¬ (g.Money - (NewStrongTower g).Cost ≥ 0) := by omega
      rw [heq]
      simp [upgradeAttempt, hneg]

/-- The shop game with its own cursor tile marked no-build. -/
def gNoBuild : Game := { gShop with NoBuildTiles := [pixelToTile gShop.Cursor] }

/-- The shop game with a tower already standing at the cursor position. -/
def gOccupied : Game := { gShop with Towers := [NewBasicTower gShop] }

/-- Witness for the rejection theorem at the two concrete games. -/
theorem buy_attempt_rejections_witness :
    buyAttempt gNoBuild = gNoBuild ∧ buyAttempt gOccupied = upgradeAttempt gOccupied :=
  ⟨(buy_attempt_rejections gNoBuild).1 (by decide),
   ((buy_attempt_rejections gOccupied).2 (by decide)
     ⟨NewBasicTower gShop, by simp [gOccupied], rfl⟩).1⟩

/-- Modelled from the spec: the state of the wave/spawn scheduler of the
final revision, whose integration code is absent from src (the wave
rosters themselves are built by NewWaves in src/unnamed/part_003, and the
countdown and spawn position follow the spawn block of main.go): the map
data, the un-spawned remainder of the current wave roster, the spawn
countdown, and the active creep roster. -/
structure WaveState where
  MapData : List Waypoint
  Pending : List Creep
  SpawnCooldown : Int
  Creeps : List Creep
deriving DecidableEq, Repr

/-- Modelled from the spec: one tick of the wave-gated spawn scheduler.
While un-spawned creeps remain, each time the countdown reaches zero the
next creep in roster order is positioned at the pixel center of the map's
first waypoint (the formula of main.go's spawn block) and appended to the
active roster; the countdown is free-running with period 180 (3 * 60), as
in main.go. -/
def waveSpawnStep (s : WaveState) : WaveState :=
  let s :=
    if s.SpawnCooldown = 0 then
      match s.Pending with
      | [] => s
      | c :: rest =>
        let spawn := s.MapData.getD 0 dWaypoint
        { s with
          Pending := rest,
          Creeps := s.Creeps ++ [{ c with Coords := ⟨spawn.X * 7 + 4, spawn.Y * 7 + 5 + 4⟩ }] }
    else s
  { s with SpawnCooldown := (s.SpawnCooldown + 1) % (3 * 60) }

/-- Iterate the spawn scheduler for `n` ticks. -/
def runWave : Nat → WaveState → WaveState
  | 0, s => s
  | n + 1, s => runWave n (waveSpawnStep s)

/-- First pending creep of the three-creep wave scenario. -/
def cWave1 : Creep := { dCreep with NextWaypoint := 1, Health := 1000, Loot := 1 }

/-- Second pending creep of the three-creep wave scenario. -/
def cWave2 : Creep := { dCreep with NextWaypoint := 1, Health := 1000, Loot := 2 }

/-- Third pending creep of the three-creep wave scenario. -/
def cWave3 : Creep := { dCreep with NextWaypoint := 1, Health := 1000, Loot := 3 }

/-- The wave scenario start state: three pending creeps, countdown 0,
empty active roster, path `wTwo` (spawn waypoint (0,0), center (4, 9)). -/
def sWave : WaveState :=
  { MapData := wTwo, Pending := [cWave1, cWave2, cWave3], SpawnCooldown := 0, Creeps := [] }

/-- `cWave1` positioned at the spawn center. -/
def cWave1Sp : Creep := { cWave1 with Coords := ⟨4, 9⟩ }

/-- `cWave2` positioned at the spawn center. -/
def cWave2Sp : Creep := { cWave2 with Coords := ⟨4, 9⟩ }

/-- `cWave3` positioned at the spawn center. -/
def cWave3Sp : Creep := { cWave3 with Coords := ⟨4, 9⟩ }

/-- The wave scenario state after 180 ticks: one creep released. -/
def sWave1 : WaveState :=
  { MapData := wTwo, Pending := [cWave2, cWave3], SpawnCooldown := 0, Creeps := [cWave1Sp] }

/-- The wave scenario state after 360 ticks: two creeps released. -/
def sWave2 : WaveState :=
  { MapData := wTwo, Pending := [cWave3], SpawnCooldown := 0, Creeps := [cWave1Sp, cWave2Sp] }

/-- Splitting a scheduler run into two runs. -/
theorem runWave_add (a b : Nat) (s : WaveState) :
    runWave (a + b) s = runWave b (runWave a s) := by
  induction a generalizing s with
  | zero => rw [Nat.zero_add]; rfl
  | succ n ih =>
    have : n + 1 + b = n + b + 1 := by omega
    rw [this, runWave, runWave, ih]

set_option maxRecDepth 100000 in
/-- C8: whenever the countdown reaches zero and un-spawned creeps remain,
one scheduler tick releases exactly the next creep in roster order,
positioned at the pixel center of the map's first waypoint, and removes it
from the pending roster; on a non-zero countdown, or once the wave roster
is exhausted, no creep is released; and concretely, from three pending
creeps and countdown 0 with path `wTwo`, after 540 ticks all three have
been released at the spawn center (4, 9), in order, and none remain
pending. -/
theorem wave_spawn_scheduler :
    (∀ (s : WaveState) (c : Creep) (rest : List Creep),
      s.SpawnCooldown = 0 → s.Pending = c :: rest →
      (waveSpawnStep s).Creeps = s.Creeps ++
        [{ c with Coords := ⟨(s.MapData.getD 0 dWaypoint).X * 7 + 4,
                            (s.MapData.getD 0 dWaypoint).Y * 7 + 5 + 4⟩ }] ∧
      (waveSpawnStep s).Pending = rest) ∧
    (∀ s : WaveState, s.SpawnCooldown ≠ 0 →
      (waveSpawnStep s).Creeps = s.Creeps ∧ (waveSpawnStep s).Pending = s.Pending) ∧
    (∀ s : WaveState, s.Pending = [] →
      (waveSpawnStep s).Creeps = s.Creeps ∧ (waveSpawnStep s).Pending = []) ∧
    ((runWave 540 sWave).Pending = [] ∧
     (runWave 540 sWave).Creeps = [cWave1Sp, cWave2Sp, cWave3Sp]) := by
  have h540 : runWave 540 sWave = runWave 180 (runWave 180 (runWave 180 sWave)) := by
    rw [← runWave_add, ← runWave_add]
  have h1 : runWave 180 sWave = sWave1 := by decide
  have h2 : runWave 180 sWave1 = sWave2 := by decide
  have h3 : (runWave 180 sWave2).Pending = [] ∧
      (runWave 180 sWave2).Creeps = [cWave1Sp, cWave2Sp, cWave3Sp] := by decide
  refine ⟨?_, ?_, ?_, ?_⟩
  case refine_4 =>
    rw [h540, h1, h2]
    exact h3
  · intro s c rest h0 hp
    simp [waveSpawnStep, h0, hp]
  · intro s hne
    simp [waveSpawnStep, hne]
  · intro s hp
    simp [waveSpawnStep, hp]

/-- Witness for the scheduler theorem: one tick from the concrete start
state releases exactly the first creep. -/
theorem wave_spawn_scheduler_witness :
    (waveSpawnStep sWave).Creeps = sWave.Creeps ++
      [{ cWave1 with Coords := ⟨(sWave.MapData.getD 0 dWaypoint).X * 7 + 4,
                               (sWave.MapData.getD 0 dWaypoint).Y * 7 + 5 + 4⟩ }] ∧
    (waveSpawnStep sWave).Pending = [cWave2, cWave3] :=
  wave_spawn_scheduler.1 sWave cWave1 [cWave2, cWave3] (by decide) (by decide)

/-- Modelled from the spec: the sell action of the final revision (absent
from src; the top-level README documents the Q sell key): remove the first
tower whose map tile matches the cursor's tile and credit a fixed flat
refund - the same amount whatever the tower's tier or cost.  The refund
constant is a parameter, since the spec does not name its value. -/
def sellTowerAt (refund : Int) (g : Game) : Game :=
  match g.Towers.findIdx?
      (fun t0 => decide (pixelToTile t0.Coords = pixelToTile g.Cursor)) with
  | some i => { g with Towers := g.Towers.eraseIdx i, Money := g.Money + refund }
  | none => g

/-- C9: when some tower stands on the cursor's tile (the first such being
at index i), selling removes exactly that one tower - the roster shrinks
by one and equals the roster with index i erased, and the removed tower
is on the queried tile - and credits exactly the flat refund to the money
balance, for every refund value and every game, hence independently of the
removed tower's tier or cost. -/
theorem sell_flat_refund (refund : Int) (g : Game) (i : Nat)
    (h : g.Towers.findIdx?
      (fun t0 => decide (pixelToTile t0.Coords = pixelToTile g.Cursor)) = some i) :
    (sellTowerAt refund g).Towers = g.Towers.eraseIdx i ∧
    (sellTowerAt refund g).Towers.length + 1 = g.Towers.length ∧
    pixelToTile ((g.Towers.getD i dTower)).Coords = pixelToTile g.Cursor ∧
    (sellTowerAt refund g).Money = g.Money + refund := by
  obtain ⟨hilen, hp, -⟩ := List.findIdx?_eq_some_iff_getElem.mp h
  refine ⟨?_, ?_, ?_, ?_⟩
  · simp [sellTowerAt, h]
  · simp [sellTowerAt, h, List.length_eraseIdx, hilen]
    omega
  · simpa [List.getD_eq_getElem?_getD, List.getElem?_eq_getElem hilen] using hp
  · simp [sellTowerAt, h]

/-- The shop game with one basic and one strong tower at distinct
positions, cursor on the basic tower's tile. -/
def gSell : Game :=
  { gShop with Towers := [NewBasicTower gShop, tKiller] }

/-- Witness for the sell theorem: selling in `gSell` removes the basic
tower at index 0 and credits the refund. -/
theorem sell_flat_refund_witness :
    (sellTowerAt 40 gSell).Towers = gSell.Towers.eraseIdx 0 ∧
    (sellTowerAt 40 gSell).Towers.length + 1 = gSell.Towers.length ∧
    pixelToTile ((gSell.Towers.getD 0 dTower)).Coords = pixelToTile gSell.Cursor ∧
    (sellTowerAt 40 gSell).Money = gSell.Money + 40 :=
  sell_flat_refund 40 gSell 0 (by decide)


/-- The creep produced by navigateWaypoints does not depend on the incoming
game state. -/
theorem navigateWaypoints_fst_state (w : List Waypoint) (st st2 : GameMode) (c : Creep) :
    (Creep.navigateWaypoints w st c).1 = (Creep.navigateWaypoints w st2 c).1 := by
  simp only [Creep.navigateWaypoints, apply_ite Prod.fst]

/-- Creep.animate does not change health. -/
theorem animate_Health (c : Creep) : c.animate.Health = c.Health := by
  simp only [Creep.animate]
  split_ifs <;> rfl

/-- Creep.navigateWaypoints does not change health. -/
theorem navigateWaypoints_Health (w : List Waypoint) (st : GameMode) (c : Creep) :
    ((Creep.navigateWaypoints w st c).1).Health = c.Health := by
  simp only [Creep.navigateWaypoints, apply_ite Prod.fst, apply_ite Creep.Health, ite_self]

/-- The creep component of one Creep.Update call; by
`Creep.Update_fst` it does not depend on the game state or money
arguments. -/
def creepStep (w : List Waypoint) (c : Creep) : Creep :=
  (Creep.Update w GameMode.build 0 c).1

/-- The creep component of Creep.Update is `creepStep`, whatever the game
state and money arguments. -/
theorem Creep.Update_fst (w : List Waypoint) (st : GameMode) (money : Int) (c : Creep) :
    (Creep.Update w st money c).1 = creepStep w c := by
  simp only [creepStep, Creep.Update]
  split_ifs
  · rfl
  · rfl
  · exact congrArg Creep.animate (navigateWaypoints_fst_state w st GameMode.build _)

/-- One creep update never changes health (only towers do, via Attack). -/
theorem creepStep_Health (w : List Waypoint) (c : Creep) :
    (creepStep w c).Health = c.Health := by
  simp only [creepStep, Creep.Update]
  split_ifs
  · rfl
  · rfl
  · rw [animate_Health, navigateWaypoints_Health]

/-- An alive creep's update leaves the money unchanged and reports no
error. -/
theorem Creep.Update_alive (w : List Waypoint) (st : GameMode) (money : Int) (c : Creep)
    (h : 0 < c.Health) :
    (Creep.Update w st money c).2.2.1 = money ∧
    (Creep.Update w st money c).2.2.2 = false := by
  have hn : ¬ c.Health ≤ 0 := by omega
  simp only [Creep.Update]
  split_ifs <;> simp_all

/-- A dead creep's update credits its loot and reports the died error,
leaving the creep unchanged. -/
theorem Creep.Update_dead (w : List Waypoint) (st : GameMode) (money : Int) (c : Creep)
    (h : c.Health ≤ 0) :
    Creep.Update w st money c = (c, st, money + c.Loot, true) := by
  simp [Creep.Update, h]

/-- Reading back an in-range write. -/
theorem getD_set_self (l : List Creep) (i : Nat) (v : Creep) (h : i < l.length) :
    (l.set i v).getD i dCreep = v := by
  rw [List.getD_eq_getElem?_getD, List.getElem?_set_eq_of_lt v h, Option.getD_some]

/-- A write at one id leaves every other id unchanged. -/
theorem getD_set_ne (l : List Creep) (i j : Nat) (v : Creep) (h : i ≠ j) :
    (l.set i v).getD j dCreep = l.getD j dCreep := by
  rw [List.getD_eq_getElem?_getD, List.getElem?_set_ne h, ← List.getD_eq_getElem?_getD]

/-- Writing a stepped creep preserves every creep's health. -/
theorem getD_set_Health (l : List Creep) (i j : Nat) (w : List Waypoint) :
    (((l.set i (creepStep w (l.getD i dCreep))).getD j dCreep)).Health =
      (l.getD j dCreep).Health := by
  by_cases hij : i = j
  · subst hij
    by_cases hlen : i < l.length
    · rw [getD_set_self l i _ hlen, creepStep_Health]
    · rw [List.set_eq_of_length_le (by omega)]
  · rw [getD_set_ne l i j _ hij]

/-- Splitting the creep loop's fuel: running `m1 + m2` iterations is
running `m1` and then `m2` more from where it left off. -/
theorem creepLoopGo_append (w : List Waypoint) (m1 m2 k : Nat) (b : List Nat) (L : Nat)
    (store : List Creep) (st : GameMode) (money : Int) :
    creepLoopGo w (m1 + m2) k b L store st money =
      Option.bind (creepLoopGo w m1 k b L store st money)
        (fun r => creepLoopGo w m2 (k + m1) r.1 r.2.1 r.2.2.1 r.2.2.2.1 r.2.2.2.2) := by
  induction m1 generalizing k b L store st money with
  | zero =>
    rw [Nat.zero_add]
    simp [creepLoopGo]
  | succ u ih =>
    have hadd : u + 1 + m2 = (u + m2) + 1 := by omega
    rw [hadd]
    simp only [creepLoopGo]
    split_ifs with h1 h2
    · rw [ih]
      have h3 : k + 1 + u = k + (u + 1) := by omega
      rw [h3]
    · simp
    · rw [ih]
      have h3 : k + 1 + u = k + (u + 1) := by omega
      rw [h3]

/-- One loop iteration over an alive creep: the creep is stepped in place,
nothing is removed, the money is unchanged. -/
theorem creepLoopGo_one_alive (w : List Waypoint) (k : Nat) (b : List Nat) (L : Nat)
    (store : List Creep) (st : GameMode) (money : Int)
    (ha : 0 < ((store.getD (b.getD k 0) dCreep)).Health) :
    creepLoopGo w 1 k b L store st money =
      some (b, L, store.set (b.getD k 0) (creepStep w (store.getD (b.getD k 0) dCreep)),
            (Creep.Update w st money (store.getD (b.getD k 0) dCreep)).2.1, money) := by
  obtain ⟨hm, hd⟩ := Creep.Update_alive w st money _ ha
  simp only [creepLoopGo, hd, hm, Creep.Update_fst]
  simp

/-- One loop iteration over a dead creep at an in-range index: the loot is
credited, the creep object is written back unchanged, and the roster slice
is shortened in place with the backing-array shift. -/
theorem creepLoopGo_one_dead (w : List Waypoint) (k : Nat) (b : List Nat) (L : Nat)
    (store : List Creep) (st : GameMode) (money : Int)
    (hd : (store.getD (b.getD k 0) dCreep).Health ≤ 0) (hkL : k < L) :
    creepLoopGo w 1 k b L store st money =
      some (removeShift b k L, L - 1,
            store.set (b.getD k 0) (store.getD (b.getD k 0) dCreep), st,
            money + (store.getD (b.getD k 0) dCreep).Loot) := by
  simp only [creepLoopGo, Creep.Update_dead w st money _ hd, hkL]
  simp

/-- A run of iterations over alive creeps only: nothing is removed, money
is unchanged, ids not read in the range keep their creep values, and every
creep's health is preserved. -/
theorem creepLoopGo_alive_run (w : List Waypoint) (m : Nat) (k : Nat) (b : List Nat)
    (L : Nat) (store : List Creep) (st : GameMode) (money : Int)
    (ha : ∀ j, k ≤ j → j < k + m → 0 < (store.getD (b.getD j 0) dCreep).Health) :
    ∃ store' st',
      creepLoopGo w m k b L store st money = some (b, L, store', st', money) ∧
      store'.length = store.length ∧
      (∀ x, (∀ j, k ≤ j → j < k + m → x ≠ b.getD j 0) →
        store'.getD x dCreep = store.getD x dCreep) ∧
      (∀ x, (store'.getD x dCreep).Health = (store.getD x dCreep).Health) := by
  induction m generalizing k store st money with
  | zero => exact ⟨store, st, rfl, rfl, fun _ _ => rfl, fun _ => rfl⟩
  | succ u ih =>
    have hak : 0 < (store.getD (b.getD k 0) dCreep).Health := ha k le_rfl (by omega)
    have hstep := creepLoopGo_one_alive w k b L store st money hak
    have hhealth1 : ∀ x,
        (((store.set (b.getD k 0) (creepStep w (store.getD (b.getD k 0) dCreep))).getD x dCreep)).Health =
          (store.getD x dCreep).Health := by
      intro x
      exact getD_set_Health store (b.getD k 0) x w
    have ha1 : ∀ j, k + 1 ≤ j → j < (k + 1) + u →
        0 < (((store.set (b.getD k 0) (creepStep w (store.getD (b.getD k 0) dCreep))).getD (b.getD j 0) dCreep)).Health := by
      intro j h1 h2
      rw [hhealth1]
      exact ha j (by omega) (by omega)
    obtain ⟨store2, st2, hrun, hlen, huntouched, hhp⟩ :=
      ih (k + 1)
        (store.set (b.getD k 0) (creepStep w (store.getD (b.getD k 0) dCreep)))
        ((Creep.Update w st money (store.getD (b.getD k 0) dCreep)).2.1) money ha1
    refine ⟨store2, st2, ?_, ?_, ?_, ?_⟩
    · have h1to : u + 1 = 1 + u := by omega
      rw [h1to, creepLoopGo_append w 1 u k b L store st money, hstep]
      simpa using hrun
    · rw [hlen, List.length_set]
    · intro x hx
      rw [huntouched x (fun j h1 h2 => hx j (by omega) (by omega))]
      exact getD_set_ne store (b.getD k 0) x _ (fun h => (hx k le_rfl (by omega)) h.symm) 
    · intro x
      rw [hhp x, hhealth1 x]

/-- The in-place removal shift keeps the backing array's length. -/
theorem removeShift_length (b : List Nat) (i L : Nat) (hiL : i < L) (hL : L ≤ b.length) :
    (removeShift b i L).length = b.length := by
  simp only [removeShift, List.length_append, List.length_take, List.length_drop]
  omega

/-- Cell-level description of the in-place removal: cells before `i` and
at or past `L - 1` are untouched; cells in between hold their right
neighbour's old value. -/
theorem removeShift_getD (b : List Nat) (i L j : Nat) (hiL : i < L) (hL : L ≤ b.length) :
    (removeShift b i L).getD j 0 =
      if j < i then b.getD j 0 else if j < L - 1 then b.getD (j + 1) 0 else b.getD j 0 := by
  have hlt : (b.take i).length = i := by simp [List.length_take]; omega
  have hlm : ((b.drop (i + 1)).take (L - 1 - i)).length = L - 1 - i := by
    simp [List.length_take, List.length_drop]; omega
  have hlAB : (b.take i ++ (b.drop (i + 1)).take (L - 1 - i)).length = L - 1 := by
    rw [List.length_append, hlt, hlm]; omega
  simp only [removeShift, List.getD_eq_getElem?_getD]
  rcases lt_or_ge j i with hj | hj
  · rw [if_pos hj, List.getElem?_append_left (by rw [hlAB]; omega),
      List.getElem?_append_left (by rw [hlt]; omega)]
    rw [List.getElem?_take, if_pos (by omega)]
  · rcases lt_or_ge j (L - 1) with hj2 | hj2
    · rw [if_neg (by omega), if_pos hj2, List.getElem?_append_left (by rw [hlAB]; omega),
        List.getElem?_append_right (by rw [hlt]; omega), hlt]
      rw [List.getElem?_take, if_pos (by omega), List.getElem?_drop]
      congr 2
      omega
    · rw [if_neg (by omega), if_neg (by omega),
        List.getElem?_append_right (by rw [hlAB]; omega), hlAB, List.getElem?_drop]
      congr 2
      omega

/-- In a duplicate-free roster, distinct indices hold distinct ids. -/
theorem nodup_getD_ne (b : List Nat) (hnd : b.Nodup) (i j : Nat)
    (hi : i < b.length) (hj : j < b.length) (hij : i ≠ j) :
    b.getD i 0 ≠ b.getD j 0 := by
  rw [List.getD_eq_getElem b 0 hi, List.getD_eq_getElem b 0 hj]
  intro h
  exact hij ((List.Nodup.getElem_inj_iff hnd).mp h)

/-- C10 (amended): when the creep at roster index d dies and is removed in
place while iterating, at least two creeps follow it (d + 2 < roster
length), and every other creep is alive, then at the end of the creep loop
the creep that was at index d+1 is completely untouched (it received no
update that tick) and the creep that was last in the roster has been
stepped exactly twice - its cadence advanced twice.  (When d+1 is the last
index, the counterexample shows that creep instead receives exactly one
update.) -/
theorem creep_loop_skip_and_double_update
    (w : List Waypoint) (b : List Nat) (store : List Creep) (st : GameMode) (money : Int)
    (d : Nat) (hd2 : d + 2 < b.length) (hnd : b.Nodup)
    (hvalid : ∀ x ∈ b, x < store.length)
    (hdead : (store.getD (b.getD d 0) dCreep).Health ≤ 0)
    (halive : ∀ j, j < b.length → j ≠ d → 0 < (store.getD (b.getD j 0) dCreep).Health) :
    ∃ b2 L2 store2 st2 money2,
      creepLoopGo w b.length 0 b b.length store st money =
        some (b2, L2, store2, st2, money2) ∧
      store2.getD (b.getD (d + 1) 0) dCreep = store.getD (b.getD (d + 1) 0) dCreep ∧
      store2.getD (b.getD (b.length - 1) 0) dCreep =
        creepStep w (creepStep w (store.getD (b.getD (b.length - 1) 0) dCreep)) := by
  have hne : ∀ i j : Nat, i < b.length → j < b.length → i ≠ j →
      b.getD i 0 ≠ b.getD j 0 := fun i j hi hj hij => nodup_getD_ne b hnd i j hi hj hij
  obtain ⟨S1, stA, hrunA, hlenA, huntA, hhA⟩ :=
    creepLoopGo_alive_run w d 0 b b.length store st money
      (fun j h0 hjd => halive j (by omega) (by omega))
  have hstepB := creepLoopGo_one_dead w d b b.length S1 stA money
    (by rw [hhA]; exact hdead) (by omega)
  have hb2getD : ∀ j, (removeShift b d b.length).getD j 0 =
      if j < d then b.getD j 0 else if j < b.length - 1 then b.getD (j + 1) 0
      else b.getD j 0 :=
    fun j => removeShift_getD b d b.length j (by omega) le_rfl
  have hS2h : ∀ x, (((S1.set (b.getD d 0) (S1.getD (b.getD d 0) dCreep)).getD x dCreep)).Health
      = (store.getD x dCreep).Health := by
    intro x
    by_cases hx : b.getD d 0 = x
    · subst hx
      by_cases hxl : b.getD d 0 < S1.length
      · rw [getD_set_self _ _ _ hxl, hhA]
      · rw [List.set_eq_of_length_le (by omega), hhA]
    · rw [getD_set_ne _ _ _ _ hx, hhA]
  obtain ⟨S3, stC, hrunC, hlenC, huntC, hhC⟩ :=
    creepLoopGo_alive_run w (b.length - d - 3) (d + 1) (removeShift b d b.length)
      (b.length - 1) (S1.set (b.getD d 0) (S1.getD (b.getD d 0) dCreep)) stA
      (money + (S1.getD (b.getD d 0) dCreep).Loot)
      (by
        intro j h1 h2
        rw [hb2getD j, if_neg (by omega), if_pos (by omega), hS2h]
        exact halive (j + 1) (by omega) (by omega))
  have hxid2 : (removeShift b d b.length).getD (b.length - 2) 0 = b.getD (b.length - 1) 0 := by
    rw [hb2getD, if_neg (by omega), if_pos (by omega)]
    congr 1
    omega
  have hxid3 : (removeShift b d b.length).getD (b.length - 1) 0 = b.getD (b.length - 1) 0 := by
    rw [hb2getD, if_neg (by omega), if_neg (by omega)]
  have hS3x : S3.getD (b.getD (b.length - 1) 0) dCreep =
      store.getD (b.getD (b.length - 1) 0) dCreep := by
    rw [huntC _ (by
        intro j h1 h2
        rw [hb2getD j, if_neg (by omega), if_pos (by omega)]
        exact hne (b.length - 1) (j + 1) (by omega) (by omega) (by omega)),
      getD_set_ne _ _ _ _ (hne d (b.length - 1) (by omega) (by omega) (by omega)),
      huntA _ (by
        intro j h1 h2
        exact hne (b.length - 1) j (by omega) (by omega) (by omega))]
  have halive_x : 0 < ((S3.getD ((removeShift b d b.length).getD (b.length - 2) 0) dCreep)).Health := by
    rw [hxid2, hS3x]
    exact halive (b.length - 1) (by omega) (by omega)
  have hstepC2 := creepLoopGo_one_alive w (b.length - 2) (removeShift b d b.length)
    (b.length - 1) S3 stC (money + (S1.getD (b.getD d 0) dCreep).Loot) halive_x
  rw [hxid2] at hstepC2
  have hxlen : b.getD (b.length - 1) 0 < S3.length := by
    rw [hlenC, List.length_set, hlenA]
    refine hvalid _ ?_
    rw [List.getD_eq_getElem b 0 (by omega)]
    exact List.getElem_mem _
  have hS4x : ((S3.set (b.getD (b.length - 1) 0)
        (creepStep w (S3.getD (b.getD (b.length - 1) 0) dCreep))).getD
        (b.getD (b.length - 1) 0) dCreep) =
      creepStep w (store.getD (b.getD (b.length - 1) 0) dCreep) := by
    rw [getD_set_self _ _ _ hxlen, hS3x]
  have halive_x2 : 0 < (((S3.set (b.getD (b.length - 1) 0)
        (creepStep w (S3.getD (b.getD (b.length - 1) 0) dCreep))).getD
        ((removeShift b d b.length).getD (b.length - 1) 0) dCreep)).Health := by
    rw [hxid3, hS4x, creepStep_Health]
    exact halive (b.length - 1) (by omega) (by omega)
  have hstepC3 := creepLoopGo_one_alive w (b.length - 1) (removeShift b d b.length)
    (b.length - 1)
    (S3.set (b.getD (b.length - 1) 0) (creepStep w (S3.getD (b.getD (b.length - 1) 0) dCreep)))
    ((Creep.Update w stC (money + (S1.getD (b.getD d 0) dCreep).Loot)
        (S3.getD (b.getD (b.length - 1) 0) dCreep)).2.1)
    (money + (S1.getD (b.getD d 0) dCreep).Loot) halive_x2
  rw [hxid3] at hstepC3
  -- assemble the run
  have e0 := creepLoopGo_append w d (b.length - d) 0 b b.length store st money
  rw [hrunA] at e0
  simp only [Option.some_bind] at e0
  rw [Nat.zero_add] at e0
  have hstart : creepLoopGo w b.length 0 b b.length store st money
      = creepLoopGo w (d + (b.length - d)) 0 b b.length store st money :=
    congrArg (fun m => creepLoopGo w m 0 b b.length store st money) (by omega)
  have e1 := creepLoopGo_append w 1 (b.length - d - 1) d b b.length S1 stA money
  rw [hstepB] at e1
  simp only [Option.some_bind] at e1
  rw [show (1 : Nat) + (b.length - d - 1) = b.length - d from by omega] at e1
  rw [show d + 1 = d + 1 from rfl] at e1
  have e2 := creepLoopGo_append w (b.length - d - 3) 2 (d + 1) (removeShift b d b.length)
    (b.length - 1) (S1.set (b.getD d 0) (S1.getD (b.getD d 0) dCreep)) stA
    (money + (S1.getD (b.getD d 0) dCreep).Loot)
  rw [hrunC] at e2
  simp only [Option.some_bind] at e2
  rw [show (b.length - d - 3) + 2 = b.length - d - 1 from by omega] at e2
  rw [show d + 1 + (b.length - d - 3) = b.length - 2 from by omega] at e2
  have e3 := creepLoopGo_append w 1 1 (b.length - 2) (removeShift b d b.length)
    (b.length - 1) S3 stC (money + (S1.getD (b.getD d 0) dCreep).Loot)
  rw [hstepC2] at e3
  simp only [Option.some_bind] at e3
  rw [show (1 : Nat) + 1 = 2 from rfl] at e3
  rw [show b.length - 2 + 1 = b.length - 1 from by omega] at e3
  rw [hstepC3] at e3
  have heq := hstart.trans (e0.trans (e1.trans (e2.trans e3)))
  refine ⟨_, _, _, _, _, heq, ?_, ?_⟩
  · -- the creep that was at index d+1 is never updated
    have hne1 : b.getD (b.length - 1) 0 ≠ b.getD (d + 1) 0 :=
      hne (b.length - 1) (d + 1) (by omega) (by omega) (by omega)
    rw [getD_set_ne _ _ _ _ hne1, getD_set_ne _ _ _ _ hne1]
    rw [huntC _ (by
        intro j h1 h2
        rw [hb2getD j, if_neg (by omega), if_pos (by omega)]
        exact hne (d + 1) (j + 1) (by omega) (by omega) (by omega)),
      getD_set_ne _ _ _ _ (hne d (d + 1) (by omega) (by omega) (by omega)),
      huntA _ (by
        intro j h1 h2
        exact hne (d + 1) j (by omega) (by omega) (by omega))]
  · -- the last creep is updated exactly twice
    have hxlen4 : b.getD (b.length - 1) 0 <
        (S3.set (b.getD (b.length - 1) 0)
          (creepStep w (S3.getD (b.getD (b.length - 1) 0) dCreep))).length := by
      rw [List.length_set]
      exact hxlen
    rw [getD_set_self _ _ _ hxlen4, hS4x]

/-- Concrete store for the loop witness: creep 0 dead, creeps 1-3 alive. -/
def storeW : List Creep := [cDead7, cAlive3, cAlive3, cAlive3]

/-- Witness for the skip/double-update theorem on the four-creep roster
[0, 1, 2, 3] with creep 0 dead: creep 1 is untouched and creep 3 is
stepped twice. -/
theorem creep_loop_skip_and_double_update_witness :
    ∃ b2 L2 store2 st2 money2,
      creepLoopGo wTwo 4 0 [0, 1, 2, 3] 4 storeW GameMode.build 0 =
        some (b2, L2, store2, st2, money2) ∧
      store2.getD 1 dCreep = storeW.getD 1 dCreep ∧
      store2.getD 3 dCreep = creepStep wTwo (creepStep wTwo (storeW.getD 3 dCreep)) :=
  creep_loop_skip_and_double_update wTwo [0, 1, 2, 3] storeW GameMode.build 0 0
    (by decide) (by decide) (by decide) (by decide)
    (by
      intro j h1 h2
      simp only [List.length_cons, List.length_nil] at h1
      have hj : j = 1 ∨ j = 2 ∨ j = 3 := by omega
      rcases hj with rfl | rfl | rfl <;> decide)

end NokiaDefence
